import Mathlib

/-!
Verification of the enrichment and normalization engine of the
Family-Friendly-Facility repository.

Python strings are modelled as `List Char` (Python `str` is a sequence of
unicode code points).  Optional / nullable values are `Option`, floats that
the scripts only ever compare and store are modelled as `ℚ`, and the real
inverse transverse-Mercator formula is modelled over `ℝ`.
-/

/-- Python strings as lists of unicode characters. -/
abbrev Str := List Char

/-- The ASCII whitespace characters recognised by Python's `str.strip()`
(`' '`, `\t`, `\n`, `\r`, `\x0b`, `\x0c`). -/
def pyIsSpace (c : Char) : Bool :=
  c = ' ' || c = '\t' || c = '\n' || c = '\r' || c = '\x0b' || c = '\x0c'

/-- Leading-whitespace removal, the left half of Python `str.strip()`. -/
def lstrip (s : Str) : Str := s.dropWhile pyIsSpace

/-- Trailing-whitespace removal, the right half of Python `str.strip()`. -/
def rstrip (s : Str) : Str := (s.reverse.dropWhile pyIsSpace).reverse

/-- Python `str.strip()`: drop leading and trailing whitespace. -/
def pyStrip (s : Str) : Str := rstrip (lstrip s)

/-- Python truthiness of an optional string: `None` and `""` are falsy. -/
def pyTruthy : Option Str → Bool
  | none => false
  | some s => !s.isEmpty

/- ---------------------------------------------------------------------
src/data/scripts/parse_address.py
--------------------------------------------------------------------- -/

/-- `CITY_PATTERNS` from parse_address.py: the ordered list of known
top-level administrative names (including the 台/臺 spelling variants). -/
def CITY_PATTERNS : List Str :=
  ["臺北市".toList, "台北市".toList, "新北市".toList, "桃園市".toList,
   "臺中市".toList, "台中市".toList, "臺南市".toList, "台南市".toList,
   "高雄市".toList, "基隆市".toList, "新竹市".toList, "嘉義市".toList,
   "新竹縣".toList, "苗栗縣".toList, "彰化縣".toList, "南投縣".toList,
   "雲林縣".toList, "嘉義縣".toList, "屏東縣".toList, "宜蘭縣".toList,
   "花蓮縣".toList, "臺東縣".toList, "台東縣".toList, "澎湖縣".toList,
   "金門縣".toList, "連江縣".toList]

/-- `DISTRICT_SUFFIXES` from parse_address.py. -/
def DISTRICT_SUFFIXES : List Char := ['區', '市', '鎮', '鄉', '縣']

/-- Whether a character is one of the second-level administrative suffixes. -/
def isDistrictSuffix (c : Char) : Bool := DISTRICT_SUFFIXES.contains c

/-- The anchored regex match `re.match(r'^([^區市鎮鄉縣]{1,4}[區市鎮鄉縣])', s)`
of parse_address.py line 59.  The greedy bounded repetition of the negated
class means: the match consists of the maximal leading run of non-suffix
characters (which must have length between 1 and 4) followed by the suffix
character that terminates that run. -/
def districtMatch (s : Str) : Option Str :=
  let L := (s.takeWhile (fun c => !isDistrictSuffix c)).length
  if 1 ≤ L ∧ L ≤ 4 ∧ L < s.length then some (s.take (L + 1)) else none

/-- The city-matching loop of parse_address.py lines 46-50: the first
pattern in `CITY_PATTERNS` that is a prefix of the (stripped) address is
taken as the city and removed from the front. -/
def matchCity (s : Str) : Option Str × Str :=
  match CITY_PATTERNS.find? (fun p => p.isPrefixOf s) with
  | some c => (some c, s.drop c.length)
  | none => (none, s)

/-- The district-matching step of parse_address.py lines 59-62. -/
def matchDistrict (s : Str) : Option Str × Str :=
  match districtMatch s with
  | some d => (some d, s.drop d.length)
  | none => (none, s)

/-- `parse_city_and_district` from parse_address.py: strip the address,
match a known city prefix, then match the district pattern, apply the
fallbacks for the fields that stayed empty, and return the stripped
remainder. -/
def parse_city_and_district (address : Option Str)
    (fallback_city fallback_district : Option Str) :
    Option Str × Option Str × Str :=
  match address with
  | none => (fallback_city, fallback_district, [])
  | some a =>
    if pyStrip a = [] then (fallback_city, fallback_district, [])
    else
      let cs := matchCity (pyStrip a)
      let city := if !pyTruthy cs.1 && pyTruthy fallback_city then
          fallback_city else cs.1
      let ds := if pyTruthy city && decide (0 < cs.2.length) then
          matchDistrict cs.2 else (none, cs.2)
      let district := if !pyTruthy ds.1 && pyTruthy fallback_district then
          fallback_district else ds.1
      (city, district, pyStrip ds.2)

/-- The character rewrite inside `normalize_city_name`:
`city.replace('台', '臺')` acts on every character independently. -/
def canonChar (c : Char) : Char := if c = '台' then '臺' else c

/-- `normalize_city_name` from parse_address.py: falsy input (None or the
empty string) gives None, otherwise every 台 is replaced by 臺. -/
def normalize_city_name : Option Str → Option Str
  | none => none
  | some s => if s.isEmpty then none else some (s.map canonChar)

/-- `normalize_district_name` from parse_address.py: falsy input gives
None, otherwise the string is stripped. -/
def normalize_district_name : Option Str → Option Str
  | none => none
  | some s => if s.isEmpty then none else some (pyStrip s)

/- ---------------------------------------------------------------------
Basic lemmas about the Python string helpers
--------------------------------------------------------------------- -/

theorem dropWhile_idem (p : Char → Bool) (l : Str) :
    (l.dropWhile p).dropWhile p = l.dropWhile p := by
  induction l with
  | nil => rfl
  | cons a t ih =>
    by_cases h : p a = true
    · simp [List.dropWhile_cons, h, ih]
    · simp [List.dropWhile_cons, h]

theorem dropWhile_append_not (p : Char → Bool) (u : Str) (c : Char)
    (hc : p c = false) (v : Str) :
    (u ++ c :: v).dropWhile p = u.dropWhile p ++ c :: v := by
  induction u with
  | nil => simp [List.dropWhile_cons, hc]
  | cons a u ih =>
    by_cases h : p a = true
    · simp [List.dropWhile_cons, h, ih]
    · simp [List.dropWhile_cons, h]

theorem dropWhile_append_single (p : Char → Bool) (u : Str) (c : Char) :
    (u ++ [c]).dropWhile p =
      if u.dropWhile p = [] then (if p c then [] else [c])
      else u.dropWhile p ++ [c] := by
  induction u with
  | nil => by_cases h : p c = true <;> simp [List.dropWhile_cons, h]
  | cons a u ih =>
    by_cases h : p a = true
    · simpa [List.dropWhile_cons, h] using ih
    · simp [List.dropWhile_cons, h]

theorem rstrip_append_cons (A : Str) (c : Char) (hc : pyIsSpace c = false)
    (r : Str) : rstrip (A ++ c :: r) = A ++ c :: rstrip r := by
  unfold rstrip
  rw [List.reverse_append, List.reverse_cons, List.append_assoc]
  rw [show ([c] ++ A.reverse) = c :: A.reverse from rfl]
  rw [dropWhile_append_not _ _ _ hc, List.reverse_append, List.reverse_cons]
  simp

theorem rstrip_cons (c : Char) (t : Str) :
    rstrip (c :: t) =
      if rstrip t = [] then (if pyIsSpace c then [] else [c])
      else c :: rstrip t := by
  unfold rstrip
  rw [show (c :: t).reverse = t.reverse ++ [c] from by simp]
  rw [dropWhile_append_single]
  by_cases h : t.reverse.dropWhile pyIsSpace = []
  · simp only [h]
    by_cases hc : pyIsSpace c = true <;> simp [hc]
  · have h2 : ¬ (t.reverse.dropWhile pyIsSpace).reverse = [] := by
      simpa using h
    simp [h, h2]

theorem lstrip_cons_not (c : Char) (hc : pyIsSpace c = false) (r : Str) :
    lstrip (c :: r) = c :: r := by
  simp [lstrip, List.dropWhile_cons, hc]

theorem rstrip_idem (s : Str) : rstrip (rstrip s) = rstrip s := by
  unfold rstrip
  rw [List.reverse_reverse, dropWhile_idem]

theorem lstrip_idem (s : Str) : lstrip (lstrip s) = lstrip s := by
  unfold lstrip
  rw [dropWhile_idem]

theorem lstrip_rstrip_comm (s : Str) :
    lstrip (rstrip s) = rstrip (lstrip s) := by
  induction s with
  | nil => rfl
  | cons c t ih =>
    by_cases h : pyIsSpace c = true
    · rw [rstrip_cons]
      by_cases h0 : rstrip t = []
      · have h1 : rstrip (t.dropWhile pyIsSpace) = [] := by
          have h2 := ih
          rw [h0] at h2
          simpa [lstrip] using h2.symm
        simp [h0, h, lstrip, List.dropWhile_cons, h1]
      · simp only [h0, if_false, if_true, h]
        rw [show lstrip (c :: rstrip t) = lstrip (rstrip t) from by
          simp [lstrip, List.dropWhile_cons, h]]
        rw [show lstrip (c :: t) = lstrip t from by
          simp [lstrip, List.dropWhile_cons, h]]
        exact ih
    · have hc : pyIsSpace c = false := by simpa using h
      rw [lstrip_cons_not c hc]
      rw [show (c :: t) = [] ++ c :: t from rfl, rstrip_append_cons [] c hc t]
      simp only [List.nil_append]
      rw [lstrip_cons_not c hc]

theorem pyStrip_rstrip (s : Str) : pyStrip (rstrip s) = pyStrip s := by
  unfold pyStrip
  rw [lstrip_rstrip_comm, rstrip_idem]

theorem pyStrip_idem (s : Str) : pyStrip (pyStrip s) = pyStrip s := by
  unfold pyStrip
  rw [lstrip_rstrip_comm, rstrip_idem, lstrip_idem]

/- ---------------------------------------------------------------------
Claim C9: idempotence of the two normalizers
--------------------------------------------------------------------- -/

theorem canonChar_canonChar (c : Char) : canonChar (canonChar c) = canonChar c := by
  unfold canonChar
  by_cases h : c = '台'
  · simp [h]
  · simp [h]

/-- Claim C9 (counterexample): the district normalizer is not idempotent.
On the whitespace-only string `" "` one application yields the empty
string `""`, but a second application maps `""` (falsy) to `None`. -/
theorem c9_district_normalize_cex :
    normalize_district_name (normalize_district_name (some [' '])) ≠
      normalize_district_name (some [' ']) := by
  decide

/-- Claim C9 (amended): the city normalizer is idempotent on every input,
and the district normalizer is idempotent on every input except a
non-empty string consisting only of whitespace (whose first normalization
is the falsy `""`, which a second pass turns into `None`). -/
theorem c9_normalize_idempotent :
    (∀ s, normalize_city_name (normalize_city_name s) = normalize_city_name s) ∧
    (∀ s, (∀ t, s = some t → t ≠ [] → pyStrip t ≠ []) →
      normalize_district_name (normalize_district_name s) =
        normalize_district_name s) := by
  constructor
  · intro s
    match s with
    | none => rfl
    | some t =>
      by_cases ht : t.isEmpty = true
      · simp [normalize_city_name, ht]
      · have ht2 : (t.map canonChar).isEmpty = false := by
          cases t with
          | nil => simp at ht
          | cons a t => simp
        simp only [normalize_city_name, ht, ht2, Bool.false_eq_true, if_false]
        rw [List.map_map]
        have h3 : List.map (canonChar ∘ canonChar) t = List.map canonChar t :=
          List.map_congr_left (fun a _ => canonChar_canonChar a)
        rw [h3]
  · intro s h
    match s with
    | none => rfl
    | some t =>
      by_cases ht : t.isEmpty = true
      · simp [normalize_district_name, ht]
      · have htne : t ≠ [] := by
          cases t with
          | nil => simp at ht
          | cons a t => simp
        have hs : pyStrip t ≠ [] := h t rfl htne
        have hs2 : (pyStrip t).isEmpty = false := by
          cases h0 : pyStrip t with
          | nil => exact absurd h0 hs
          | cons a u => simp
        simp only [normalize_district_name, ht, Bool.false_eq_true, if_false, hs2]
        rw [pyStrip_idem]

/-- Claim C9 witness: the amended idempotence applied to the concrete
district `"北投區"` and the concrete city `some "台北市"`. -/
theorem c9_normalize_idempotent_witness :
    normalize_district_name (normalize_district_name (some "北投區".toList)) =
      normalize_district_name (some "北投區".toList) ∧
    normalize_city_name (normalize_city_name (some "台北市".toList)) =
      normalize_city_name (some "台北市".toList) :=
  ⟨c9_normalize_idempotent.2 (some "北投區".toList)
      (by intro t ht hne; injection ht with h2; subst h2; decide),
   c9_normalize_idempotent.1 (some "台北市".toList)⟩

/- ---------------------------------------------------------------------
src/data/scripts/geocode_nursing_rooms.py
The orchestrator is modelled relative to an abstract geocoding client
(the behaviour of `geocode_address` for the addresses of the run, which
depends on the external HTTP service); `geocode_address` itself is
modelled separately below over an abstract HTTP response.
--------------------------------------------------------------------- -/

/-- One entry of the `data` array of the nursing-room snapshot file,
restricted to the fields the enrichment pass reads or writes. -/
structure Item where
  name : Str
  address : Str
  latitude : Option ℚ
  longitude : Option ℚ
deriving DecidableEq

/-- Abstract geocoding client: what `geocode_address` returns for a given
address, as a `(longitude, latitude)` pair or no result. -/
abbrev GeocodeClient := Str → Option (ℚ × ℚ)

/-- `process_item` from geocode_nursing_rooms.py (lines 78-111): skip
items that already have both coordinates, otherwise geocode the address
and, on success, write both fields. -/
def process_item (client : GeocodeClient) (item : Item) :
    Item × Option (ℚ × ℚ) :=
  if item.latitude.isSome && item.longitude.isSome then (item, none)
  else
    match client item.address with
    | some (lon, lat) =>
      ({ item with longitude := some lon, latitude := some lat }, some (lon, lat))
    | none => (item, none)

/-- The job-selection criterion of geocode_nursing_rooms.py lines 136-140:
an item is processed when latitude or longitude is still missing. -/
def needsCoords (item : Item) : Bool :=
  item.latitude.isNone || item.longitude.isNone

/-- `items_to_process` of geocode_nursing_rooms.py lines 136-140: the
items selected for geocoding jobs (one job per selected item). -/
def items_to_process (items : List Item) : List Item :=
  items.filter needsCoords

/-- The record set that `geocode_nursing_rooms` finally persists: every
selected item is replaced by its `process_item` result (merged back by
index), every other item is kept as it was loaded. -/
def geocode_run (client : GeocodeClient) (items : List Item) : List Item :=
  items.map (fun it => if needsCoords it then (process_item client it).1 else it)

/- ---------------------------------------------------------------------
Claim C10: complete records are returned unchanged (frame property)
--------------------------------------------------------------------- -/

/-- One entry of the playground snapshot handled by
src/data/reverse_geocode_playgrounds.py; an absent or null address is
modelled by the falsy empty string. -/
structure PItem where
  name : Str
  address : Str
  latitude : Option ℚ
  longitude : Option ℚ
deriving DecidableEq

/-- Abstract reverse-geocoding client: what `reverse_geocode` returns for
a given coordinate pair. -/
abbrev RevClient := ℚ → ℚ → Option Str

/-- `process_item` from reverse_geocode_playgrounds.py (lines 109-145):
skip items that already have an address, skip items without a coordinate
pair, otherwise reverse-geocode and on success write the address. -/
def process_item_rev (client : RevClient) (item : PItem) :
    PItem × Option Str :=
  if item.address ≠ [] then (item, none)
  else
    match item.latitude, item.longitude with
    | some la, some lo =>
      (match client la lo with
       | some addr => ({ item with address := addr }, some addr)
       | none => (item, none))
    | some _, none => (item, none)
    | none, some _ => (item, none)
    | none, none => (item, none)

/-- Claim C10: a record with both coordinates present is returned
unchanged by the geocode worker with an empty result, independently of
the client (so no API call can influence the outcome), and a record with
a non-empty address is likewise returned unchanged by the reverse-geocode
worker. -/
theorem c10_complete_records_untouched :
    (∀ (client : GeocodeClient) (item : Item),
      item.latitude.isSome = true → item.longitude.isSome = true →
      process_item client item = (item, none)) ∧
    (∀ (client : RevClient) (item : PItem),
      item.address ≠ [] → process_item_rev client item = (item, none)) := by
  constructor
  · intro client item h1 h2
    simp [process_item, h1, h2]
  · intro client item h
    simp [process_item_rev, h]

/-- Claim C10 witness: the frame property at a concrete complete record
and a concrete addressed record, with clients that would return results. -/
theorem c10_complete_records_untouched_witness :
    process_item (fun _ => some (1, 2))
        ⟨"A".toList, "x".toList, some 25, some 121⟩ =
      (⟨"A".toList, "x".toList, some 25, some 121⟩, none) ∧
    process_item_rev (fun _ _ => some "y".toList)
        ⟨"B".toList, "台北".toList, some 25, some 121⟩ =
      (⟨"B".toList, "台北".toList, some 25, some 121⟩, none) :=
  ⟨c10_complete_records_untouched.1 _ _ (by decide) (by decide),
   c10_complete_records_untouched.2 _ _ (by decide)⟩

/- ---------------------------------------------------------------------
Claim C4: idempotent resume (zero jobs on the second run)
--------------------------------------------------------------------- -/

/-- Claim C4: with a client that always returns a coordinate pair, after
one run every item has both coordinates, so the job selection of a second
run is empty: zero jobs are dispatched and the orchestrator returns
immediately (geocode_nursing_rooms.py lines 146-148). -/
theorem c4_idempotent_second_run (client : GeocodeClient)
    (h : ∀ a, (client a).isSome = true) (items : List Item) :
    items_to_process (geocode_run client items) = [] := by
  rw [items_to_process, List.filter_eq_nil_iff]
  intro it hit
  rw [geocode_run, List.mem_map] at hit
  obtain ⟨it0, _, rfl⟩ := hit
  by_cases h0 : needsCoords it0 = true
  · simp only [h0, if_true]
    have h1 := h it0.address
    match h2 : client it0.address with
    | some p =>
      have h3 : ¬(it0.latitude.isSome = true ∧ it0.longitude.isSome = true) := by
        simp only [needsCoords, Bool.or_eq_true, Option.isNone_iff_eq_none] at h0
        rcases h0 with h0 | h0 <;> simp [h0]
      simp [process_item, needsCoords, h2, h3]
    | none => rw [h2] at h1; simp at h1
  · simp only [h0, if_false]
    simp only [needsCoords, Bool.or_eq_true, Option.isNone_iff_eq_none] at h0 ⊢
    exact h0

/-- Claim C4 witness: a concrete two-item snapshot run with the constant
stub client; the second run has an empty job list. -/
theorem c4_idempotent_second_run_witness :
    items_to_process (geocode_run (fun _ => some (121, 25))
      [⟨"A".toList, "x".toList, none, none⟩,
       ⟨"B".toList, "y".toList, some 24, some 120⟩]) = [] :=
  c4_idempotent_second_run (fun _ => some (121, 25)) (fun _ => rfl) _

/- ---------------------------------------------------------------------
Claim C3: the paired-coordinates invariant
--------------------------------------------------------------------- -/

/-- Claim C3 (counterexample): the claim fails as stated.  A loaded record
that already carries a partial pair (latitude set, longitude null) is
selected for a job, but when its geocoding job fails (here: a client that
returns no result) the record is merged back and persisted unchanged, so
the persisted snapshot still contains the partial pair. -/
theorem c3_partial_pair_cex :
    ∃ it ∈ geocode_run (fun _ => (none : Option (ℚ × ℚ)))
        [⟨"A".toList, "x".toList, some 25, none⟩],
      ¬(it.latitude = none ↔ it.longitude = none) := by
  decide

/-- Claim C3 (amended): an enrichment run never creates a partial pair —
`process_item` writes latitude and longitude together or not at all — so
the pairing invariant is preserved: if every loaded record has latitude
null exactly when longitude is null, the same holds for every record of
the persisted snapshot, for every client behaviour (including failures). -/
theorem c3_pair_invariant_preserved (client : GeocodeClient)
    (items : List Item)
    (h : ∀ it ∈ items, (it.latitude = none ↔ it.longitude = none)) :
    ∀ it ∈ geocode_run client items,
      (it.latitude = none ↔ it.longitude = none) := by
  intro it hit
  rw [geocode_run, List.mem_map] at hit
  obtain ⟨it0, hmem, rfl⟩ := hit
  have h0 := h it0 hmem
  by_cases hn : needsCoords it0 = true
  · simp only [hn, if_true]
    have hla : it0.latitude = none := by
      simp only [needsCoords, Bool.or_eq_true, Option.isNone_iff_eq_none] at hn
      rcases hn with hn | hn
      · exact hn
      · exact h0.mpr hn
    have hlo : it0.longitude = none := h0.mp hla
    match h2 : client it0.address with
    | some p => simp [process_item, h2, hla, hlo]
    | none => simp [process_item, h2, hla, hlo]
  · simp only [hn, if_false]
    exact h0

/-- Claim C3 witness: the preserved invariant instantiated on a concrete
run (an empty record filled by a successful job) and the concrete record
it persists. -/
theorem c3_pair_invariant_witness :
    (⟨"A".toList, "x".toList, some 25, some 121⟩ : Item).latitude = none ↔
      (⟨"A".toList, "x".toList, some 25, some 121⟩ : Item).longitude = none :=
  c3_pair_invariant_preserved (fun _ => some (121, 25))
    [⟨"A".toList, "x".toList, none, none⟩] (by decide)
    ⟨"A".toList, "x".toList, some 25, some 121⟩ (by decide)

/- ---------------------------------------------------------------------
Claim C1: where the coordinate bounding box is (and is not) enforced
--------------------------------------------------------------------- -/

/-- Claim C1 (counterexample): the geocoding enrichment run of
geocode_nursing_rooms.py performs no bounding-box validation: a client
result of longitude 0 / latitude 0 — far outside lat ∈ [20,26],
lon ∈ [118,123] — is written into the record and ends up in the persisted
snapshot. -/
theorem c1_box_not_enforced_in_run :
    geocode_run (fun _ => some ((0 : ℚ), (0 : ℚ)))
        [⟨"A".toList, "x".toList, none, none⟩] =
      [⟨"A".toList, "x".toList, some 0, some 0⟩] ∧
    ((0 : ℚ) < 20 ∧ (0 : ℚ) < 118) := by
  constructor
  · decide
  · constructor <;> norm_num

/- ---------------------------------------------------------------------
Claim C5: the periodic-save counter
(geocode_nursing_rooms.py lines 183-189, reverse_geocode_playgrounds.py
lines 227-233 — both runs share the identical counter logic.)
--------------------------------------------------------------------- -/

/-- One completed job in the orchestrator loop: `processed_count` is
incremented; if `save_interval` many jobs completed since the last save
(`processed_count - last_save_count >= save_interval`), the snapshot is
written and `last_save_count := processed_count`.  The state is the pair
`(processed_count, last_save_count)`. -/
def checkpoint_step (save_interval : ℕ) (s : ℕ × ℕ) : ℕ × ℕ :=
  let processed := s.1 + 1
  if save_interval ≤ processed - s.2 then (processed, processed)
  else (processed, s.2)

/-- The counter state after `n` completed jobs of a run (both counters
start at 0). -/
def checkpoint_run (save_interval : ℕ) : ℕ → ℕ × ℕ
  | 0 => (0, 0)
  | n + 1 => checkpoint_step save_interval (checkpoint_run save_interval n)

theorem checkpoint_run_invariant (I : ℕ) (hI : 1 ≤ I) (n : ℕ) :
    (checkpoint_run I n).2 ≤ (checkpoint_run I n).1 ∧
      (checkpoint_run I n).1 - (checkpoint_run I n).2 + 1 ≤ I := by
  induction n with
  | zero => simpa [checkpoint_run] using hI
  | succ n ih =>
    obtain ⟨ih1, ih2⟩ := ih
    rw [checkpoint_run, checkpoint_step]
    by_cases h : I ≤ (checkpoint_run I n).1 + 1 - (checkpoint_run I n).2
    · simpa [h] using hI
    · have h2 : (checkpoint_run I n).1 + 1 - (checkpoint_run I n).2 + 1 ≤ I := by
        omega
      simp only [h, if_false]
      exact ⟨by omega, h2⟩

/-- Claim C5: whenever the number of completed jobs since the last
checkpoint reaches `save_interval`, the orchestrator saves and resets the
counter (first conjunct: the step writes `last_save_count :=
processed_count` exactly then), and therefore at every point of the run —
even immediately after a completion, before the save check runs — the
number of completed-but-unpersisted jobs `processed_count -
last_save_count` never exceeds `save_interval`. -/
theorem c5_checkpoint_bound (I : ℕ) (hI : 1 ≤ I) :
    (∀ p ls, I ≤ p + 1 - ls → checkpoint_step I (p, ls) = (p + 1, p + 1)) ∧
    (∀ n, (checkpoint_run I n).1 - (checkpoint_run I n).2 ≤ I ∧
      (checkpoint_run I n).1 + 1 - (checkpoint_run I n).2 ≤ I) := by
  constructor
  · intro p ls h
    simp [checkpoint_step, h]
  · intro n
    have h := checkpoint_run_invariant I hI n
    omega

/-- Claim C5 witness: the save-and-reset step and the bound at a concrete
interval (2) and run length (5). -/
theorem c5_checkpoint_bound_witness :
    checkpoint_step 2 (3, 2) = (4, 4) ∧
      (checkpoint_run 2 5).1 - (checkpoint_run 2 5).2 ≤ 2 :=
  ⟨(c5_checkpoint_bound 2 (by decide)).1 3 2 (by decide),
   ((c5_checkpoint_bound 2 (by decide)).2 5).1⟩

/- ---------------------------------------------------------------------
Claim C6: candidate selection in geocode_address
--------------------------------------------------------------------- -/

/-- One candidate of the ArcGIS `findAddressCandidates` response: an
optional confidence score and the optional `location` fields `x`
(longitude) and `y` (latitude). -/
structure Candidate where
  score : Option ℚ
  x : Option ℚ
  y : Option ℚ
deriving DecidableEq

/-- The sort key of geocode_nursing_rooms.py line 55:
`lambda x: x.get("score", 0)` — a candidate without a score counts as
score 0. -/
def candScore (c : Candidate) : ℚ := c.score.getD 0

/-- Python's `max(iterable, key=...)`: scan left to right, replacing the
current best only on a strictly greater key, so the first of several
equal-key maxima is kept. -/
def pyMaxBy (key : Candidate → ℚ) (a : Candidate) (l : List Candidate) :
    Candidate :=
  l.foldl (fun best c => if key best < key c then c else best) a

/-- `best_candidate = max(data["candidates"], key=lambda x: x.get("score", 0))`
of geocode_nursing_rooms.py line 55, as a function of the candidate list. -/
def best_candidate : List Candidate → Option Candidate
  | [] => none
  | c :: rest => some (pyMaxBy candScore c rest)

theorem pyMaxBy_spec (key : Candidate → ℚ) (a : Candidate)
    (l : List Candidate) :
    ∃ l1 l2, a :: l = l1 ++ pyMaxBy key a l :: l2 ∧
      (∀ d ∈ l1, key d < key (pyMaxBy key a l)) ∧
      (∀ d ∈ a :: l, key d ≤ key (pyMaxBy key a l)) := by
  induction l generalizing a with
  | nil =>
    exact ⟨[], [], rfl, by simp, by simp [pyMaxBy]⟩
  | cons c t ih =>
    have hstep : pyMaxBy key a (c :: t) =
        pyMaxBy key (if key a < key c then c else a) t := rfl
    by_cases hac : key a < key c
    · obtain ⟨l1, l2, he, hlt, hle⟩ := ih c
      rw [hstep, if_pos hac]
      refine ⟨a :: l1, l2, ?_, ?_, ?_⟩
      · rw [List.cons_append, ← he]
      · intro d hd
        rcases List.mem_cons.mp hd with hd | hd
        · subst hd
          exact lt_of_lt_of_le hac (hle c (List.mem_cons_self c t))
        · exact hlt d hd
      · intro d hd
        rcases List.mem_cons.mp hd with hd | hd
        · subst hd
          exact le_of_lt (lt_of_lt_of_le hac (hle c (List.mem_cons_self c t)))
        · exact hle d hd
    · obtain ⟨l1, l2, he, hlt, hle⟩ := ih a
      rw [hstep, if_neg hac]
      have hca : key c ≤ key a := le_of_not_lt hac
      cases l1 with
      | nil =>
        simp only [List.nil_append] at he
        have hb : pyMaxBy key a t = a := by
          injection he with h1 h2
          exact h1.symm
        refine ⟨[], c :: t, by simp [hb], by simp, ?_⟩
        intro d hd
        rcases List.mem_cons.mp hd with hd | hd
        · rw [hd]
          exact hle a (List.mem_cons_self a t)
        rcases List.mem_cons.mp hd with hd | hd
        · rw [hd]
          exact le_trans hca (hle a (List.mem_cons_self a t))
        · exact hle d (List.mem_cons_of_mem a hd)
      | cons x l1 =>
        rw [List.cons_append] at he
        obtain ⟨hx, ht⟩ : a = x ∧ t = l1 ++ pyMaxBy key a t :: l2 := by
          rw [List.cons.injEq] at he
          exact he
        rw [← hx] at hlt
        refine ⟨a :: c :: l1, l2, ?_, ?_, ?_⟩
        · rw [List.cons_append, List.cons_append, ← ht]
        · intro d hd
          have haq : key a < key (pyMaxBy key a t) :=
            hlt a (List.mem_cons_self a l1)
          rcases List.mem_cons.mp hd with hd | hd
          · subst hd; exact haq
          rcases List.mem_cons.mp hd with hd | hd
          · subst hd; exact lt_of_le_of_lt hca haq
          · exact hlt d (List.mem_cons_of_mem a hd)
        · intro d hd
          have haq : key a ≤ key (pyMaxBy key a t) :=
            hle a (List.mem_cons_self a t)
          rcases List.mem_cons.mp hd with hd | hd
          · subst hd; exact haq
          rcases List.mem_cons.mp hd with hd | hd
          · subst hd; exact le_trans hca haq
          · exact hle d (List.mem_cons_of_mem a hd)

/-- Claim C6: for every non-empty candidate list, `best_candidate` (the
`max(..., key=score)` call of `geocode_address`) returns a candidate of
the list whose score (missing score counted as 0) is maximal, and every
candidate placed before it in the service's response order has a strictly
smaller score — on ties the earliest candidate wins, with no re-sorting. -/
theorem c6_best_candidate_first_max (c : Candidate) (rest : List Candidate) :
    ∃ b l1 l2, best_candidate (c :: rest) = some b ∧
      c :: rest = l1 ++ b :: l2 ∧
      (∀ d ∈ l1, candScore d < candScore b) ∧
      (∀ d ∈ c :: rest, candScore d ≤ candScore b) := by
  obtain ⟨l1, l2, he, hlt, hle⟩ := pyMaxBy_spec candScore c rest
  exact ⟨pyMaxBy candScore c rest, l1, l2, rfl, he, hlt, hle⟩

/-- Claim C6 witness: on a concrete list where the top score 5 is shared
by the second and third candidates, the selected one is the second — the
first of the tied candidates in service order. -/
theorem c6_best_candidate_first_max_witness :
    ∃ b l1 l2,
      best_candidate [⟨some 3, some 1, some 2⟩, ⟨some 5, some 10, some 20⟩,
        ⟨some 5, some 30, some 40⟩] = some b ∧
      [⟨some 3, some 1, some 2⟩, ⟨some 5, some 10, some 20⟩,
        ⟨some 5, some 30, some 40⟩] = l1 ++ b :: l2 ∧
      (∀ d ∈ l1, candScore d < candScore b) ∧
      (∀ d ∈ [(⟨some 3, some 1, some 2⟩ : Candidate),
        ⟨some 5, some 10, some 20⟩, ⟨some 5, some 30, some 40⟩],
        candScore d ≤ candScore b) :=
  c6_best_candidate_first_max ⟨some 3, some 1, some 2⟩
    [⟨some 5, some 10, some 20⟩, ⟨some 5, some 30, some 40⟩]

/- ---------------------------------------------------------------------
Claim C7: both clients fail soft
--------------------------------------------------------------------- -/

/-- The possible outcomes of the HTTP exchange inside `geocode_address`
(geocode_nursing_rooms.py lines 44-75): a network error or non-success
status (both raise and are caught, lines 45-46 and 67-69), a body whose
parsing raises (caught at lines 70-75), or a parsed JSON body, which may
lack the `candidates` key (`none`) or carry a candidate list. -/
inductive GeoResponse where
  | netError
  | malformed
  | ok (candidates : Option (List Candidate))
deriving DecidableEq

/-- `geocode_address` from geocode_nursing_rooms.py as a function of the
address and the abstract response: blank addresses short-circuit to None,
every failure path returns None, and a candidate list is reduced with
`max(..., key=score)` before the `location` fields are read. -/
def geocode_address (address : Str) (resp : GeoResponse) : Option (ℚ × ℚ) :=
  if address = [] || pyStrip address = [] then none
  else
    match resp with
    | .netError => none
    | .malformed => none
    | .ok none => none
    | .ok (some []) => none
    | .ok (some (c :: rest)) =>
      let best := pyMaxBy candScore c rest
      match best.x, best.y with
      | some lon, some lat => some (lon, lat)
      | some _, none => none
      | none, some _ => none
      | none, none => none

/-- One entry of the `results` array of the Google geocoding response. -/
structure GResult where
  formatted_address : Option Str
deriving DecidableEq

/-- The possible outcomes of the HTTP exchange inside `reverse_geocode`
(reverse_geocode_playgrounds.py lines 64-106): a network error or
non-success HTTP status (raised and caught), a body whose parsing raises,
or a parsed body carrying the API `status` string and a result list. -/
inductive GoogleResponse where
  | netError
  | malformed
  | ok (status : Str) (results : List GResult)
deriving DecidableEq

/-- `reverse_geocode` from reverse_geocode_playgrounds.py as a function of
the coordinates and the abstract response: None coordinates, failures,
a non-`"OK"` API status, an empty result list, and a first result without
a truthy `formatted_address` all yield None. -/
def reverse_geocode (latitude longitude : Option ℚ) (resp : GoogleResponse) :
    Option Str :=
  match latitude, longitude with
  | some _, some _ =>
    (match resp with
     | .netError => none
     | .malformed => none
     | .ok status results =>
       if status ≠ "OK".toList then none
       else
         match results with
         | [] => none
         | r :: _ =>
           match r.formatted_address with
           | some addr => if addr = [] then none else some addr
           | none => none)
  | some _, none => none
  | none, some _ => none
  | none, none => none

/-- Claim C7: both clients are total functions into `Option` — no input
makes them raise — and every failure class returns None: network errors
and non-success statuses, bodies whose parsing raises, a missing or empty
candidate list, a candidate without location coordinates, a non-`"OK"`
reverse-geocoding status, and an empty result list. -/
theorem c7_fail_soft :
    (∀ (address : Str),
      geocode_address address .netError = none ∧
      geocode_address address .malformed = none ∧
      geocode_address address (.ok none) = none ∧
      geocode_address address (.ok (some [])) = none ∧
      ∀ sc, geocode_address address (.ok (some [⟨sc, none, none⟩])) = none) ∧
    (∀ (la lo : Option ℚ),
      reverse_geocode la lo .netError = none ∧
      reverse_geocode la lo .malformed = none ∧
      (∀ status results, status ≠ "OK".toList →
        reverse_geocode la lo (.ok status results) = none) ∧
      reverse_geocode la lo (.ok "OK".toList []) = none) := by
  constructor
  · intro address
    by_cases h : (address = [] || pyStrip address = []) = true
    · exact ⟨by simp [geocode_address, h], by simp [geocode_address, h],
        by simp [geocode_address, h], by simp [geocode_address, h],
        fun sc => by simp [geocode_address, h]⟩
    · refine ⟨by simp [geocode_address, h], by simp [geocode_address, h],
        by simp [geocode_address, h], by simp [geocode_address, h],
        fun sc => ?_⟩
      simp [geocode_address, h, pyMaxBy]
  · intro la lo
    match la, lo with
    | none, none => exact ⟨rfl, rfl, fun _ _ _ => rfl, rfl⟩
    | none, some y => exact ⟨rfl, rfl, fun _ _ _ => rfl, rfl⟩
    | some x, none => exact ⟨rfl, rfl, fun _ _ _ => rfl, rfl⟩
    | some x, some y =>
      refine ⟨rfl, rfl, fun status results h => ?_, rfl⟩
      simp only [reverse_geocode]
      rw [if_pos h]

/-- Claim C7 witness: the non-success-status clause instantiated at the
concrete status `"ZERO_RESULTS"` with a non-empty result list and real
coordinates. -/
theorem c7_fail_soft_witness :
    reverse_geocode (some 25) (some 121)
      (.ok "ZERO_RESULTS".toList [⟨some "x".toList⟩]) = none :=
  (c7_fail_soft.2 (some 25) (some 121)).2.2.1 "ZERO_RESULTS".toList
    [⟨some "x".toList⟩] (by decide)

/- ---------------------------------------------------------------------
src/data/scripts/parse_playgrounds.py — the CSV parser, which is where
the coordinate bounding box actually gets enforced
--------------------------------------------------------------------- -/

/-- One CSV row as `parse_playgrounds_csv` reads it.  `latitude` /
`longitude` hold the result of `float(row.get(..., 0))`: `none` models a
raising conversion (the row is then skipped). -/
structure CsvRow where
  location : Str
  address : Str
  district : Option Str
  link : Option Str
  latitude : Option ℚ
  longitude : Option ℚ
deriving DecidableEq

/-- `ParsedPlace` from parse_playgrounds.py, restricted to the scalar
fields (the `metadata` passthrough dictionary and the interpolated
`source_id` string are pure formatting and are not modelled). -/
structure ParsedPlace where
  name : Str
  address : Str
  city : Option Str
  district : Option Str
  latitude : ℚ
  longitude : ℚ
  link : Option Str
  source : Str
deriving DecidableEq

/-- `parse_playgrounds_csv` from parse_playgrounds.py (lines 123-173):
skip rows with unparseable coordinates, skip rows outside the valid
bounding box (lat in [20,26], lng in [118,123], line 145), parse the
address into city/district/remainder with the row's district as fallback,
and normalize the city and district spellings. -/
def parse_playgrounds_csv (rows : List CsvRow) : List ParsedPlace :=
  rows.filterMap fun row =>
    match row.latitude, row.longitude with
    | some lat, some lng =>
      if lat < 20 ∨ 26 < lat ∨ lng < 118 ∨ 123 < lng then none
      else
        let r := parse_city_and_district (some row.address) none row.district
        some { name := row.location,
               address := if r.2.2 ≠ [] then r.2.2 else row.address,
               city := normalize_city_name r.1,
               district := normalize_district_name r.2.1,
               latitude := lat,
               longitude := lng,
               link := row.link,
               source := "共融式遊戲場".toList }
    | some _, none => none
    | none, some _ => none
    | none, none => none

/-- Claim C1 (amended): the bounding-box filter lives in the playground
parser, not in the geocoding enrichment run — every place produced by
`parse_playgrounds_csv` has coordinates inside lat ∈ [20,26],
lng ∈ [118,123] (while `geocode_run` stores client coordinates without
any box check, see the counterexample). -/
theorem c1_parser_box_filter (rows : List CsvRow) (p : ParsedPlace)
    (hp : p ∈ parse_playgrounds_csv rows) :
    20 ≤ p.latitude ∧ p.latitude ≤ 26 ∧
      118 ≤ p.longitude ∧ p.longitude ≤ 123 := by
  rw [parse_playgrounds_csv, List.mem_filterMap] at hp
  obtain ⟨row, _, hf⟩ := hp
  match h1 : row.latitude, h2 : row.longitude with
  | some lat, some lng =>
    rw [h1, h2] at hf
    dsimp only at hf
    by_cases hbox : lat < 20 ∨ 26 < lat ∨ lng < 118 ∨ 123 < lng
    · rw [if_pos hbox] at hf
      exact absurd hf (by simp)
    · rw [if_neg hbox] at hf
      push_neg at hbox
      obtain ⟨b1, b2, b3, b4⟩ := hbox
      have hlat : p.latitude = lat := by
        rw [← Option.some_inj.mp hf]
      have hlng : p.longitude = lng := by
        rw [← Option.some_inj.mp hf]
      rw [hlat, hlng]
      exact ⟨b1, b2, b3, b4⟩
  | some _, none => rw [h1, h2] at hf; dsimp only at hf; exact absurd hf (by simp)
  | none, some _ => rw [h1, h2] at hf; dsimp only at hf; exact absurd hf (by simp)
  | none, none => rw [h1, h2] at hf; dsimp only at hf; exact absurd hf (by simp)

/-- Claim C1 witness: the box bounds for the place parsed from a concrete
in-range CSV row. -/
theorem c1_parser_box_filter_witness :
    (20 : ℚ) ≤ (⟨"公園".toList, "榮華三路".toList, some "臺北市".toList,
        some "北投區".toList, 25, 121, none, "共融式遊戲場".toList⟩ :
        ParsedPlace).latitude ∧
    (⟨"公園".toList, "榮華三路".toList, some "臺北市".toList,
        some "北投區".toList, 25, 121, none, "共融式遊戲場".toList⟩ :
        ParsedPlace).latitude ≤ 26 ∧
    (118 : ℚ) ≤ (⟨"公園".toList, "榮華三路".toList, some "臺北市".toList,
        some "北投區".toList, 25, 121, none, "共融式遊戲場".toList⟩ :
        ParsedPlace).longitude ∧
    (⟨"公園".toList, "榮華三路".toList, some "臺北市".toList,
        some "北投區".toList, 25, 121, none, "共融式遊戲場".toList⟩ :
        ParsedPlace).longitude ≤ 123 :=
  c1_parser_box_filter
    [⟨"公園".toList, "臺北市北投區榮華三路".toList, none, none,
      some 25, some 121⟩] _ (by decide)

/- ---------------------------------------------------------------------
Claim C2: parsing city ++ district ++ remainder
--------------------------------------------------------------------- -/

theorem isPrefixOf_append_self (l x : Str) : l.isPrefixOf (l ++ x) = true := by
  induction l with
  | nil => cases x <;> rfl
  | cons a t ih =>
    rw [List.cons_append]
    simp only [List.isPrefixOf, Bool.and_eq_true, beq_iff_eq]
    exact ⟨by trivial, ih⟩

theorem eq_of_isPrefixOf_append (p : Str) :
    ∀ (c : Str) (x : Str), p.length = c.length →
      p.isPrefixOf (c ++ x) = true → p = c := by
  induction p with
  | nil =>
    intro c x hlen _
    cases c with
    | nil => rfl
    | cons b cb => simp at hlen
  | cons a pa ih =>
    intro c x hlen h
    cases c with
    | nil => simp at hlen
    | cons b cb =>
      rw [List.cons_append] at h
      simp only [List.isPrefixOf, Bool.and_eq_true, beq_iff_eq] at h
      obtain ⟨hab, hpre⟩ := h
      rw [hab, ih cb x (by simpa using hlen) hpre]

theorem find_first_pattern (n : ℕ) (x c : Str) :
    ∀ (l : List Str), (∀ p ∈ l, p.length = n) → l.Nodup → c ∈ l →
      l.find? (fun p => p.isPrefixOf (c ++ x)) = some c := by
  intro l
  induction l with
  | nil => intro _ _ hc; cases hc
  | cons q t ih =>
    intro hlen hnd hc
    rw [List.find?_cons]
    rcases List.mem_cons.mp hc with hqc | hct
    · have hq : q.isPrefixOf (c ++ x) = true := by
        rw [hqc]
        exact isPrefixOf_append_self q x
      rw [hq]
      dsimp only
      rw [hqc]
    · have hqt : q ∉ t := (List.nodup_cons.mp hnd).1
      have hneg : q.isPrefixOf (c ++ x) = false := by
        cases hb : q.isPrefixOf (c ++ x) with
        | false => rfl
        | true =>
          have hq : q = c := eq_of_isPrefixOf_append q c x
            (by rw [hlen q (List.mem_cons_self q t), hlen c hc]) hb
          rw [hq] at hqt
          exact absurd hct hqt
      rw [hneg]
      dsimp only
      exact ih (fun p hp => hlen p (List.mem_cons_of_mem q hp))
        (List.nodup_cons.mp hnd).2 hct

theorem takeWhile_append_stop (q : Char → Bool) (u : Str)
    (hu : ∀ c ∈ u, q c = true) (c : Char) (hc : q c = false) (v : Str) :
    (u ++ c :: v).takeWhile q = u := by
  induction u with
  | nil => simp [List.takeWhile_cons, hc]
  | cons a u ih =>
    have ha : q a = true := hu a (List.mem_cons_self a u)
    rw [List.cons_append, List.takeWhile_cons, if_pos ha]
    rw [ih (fun d hd => hu d (List.mem_cons_of_mem a hd))]

theorem take_append_cons (u : Str) (c : Char) (v : Str) :
    (u ++ c :: v).take (u.length + 1) = u ++ [c] := by
  induction u with
  | nil => simp
  | cons a u ih =>
    simp only [List.cons_append, List.length_cons, List.take_succ_cons, ih]

theorem drop_append_cons (u : Str) (c : Char) (v : Str) :
    (u ++ c :: v).drop (u.length + 1) = v := by
  induction u with
  | nil => simp
  | cons a u ih =>
    simp only [List.cons_append, List.length_cons, List.drop_succ_cons, ih]

theorem drop_append_self (u v : Str) : (u ++ v).drop u.length = v := by
  induction u with
  | nil => simp
  | cons a u ih =>
    simp only [List.cons_append, List.length_cons, List.drop_succ_cons, ih]

theorem matchCity_concat (c : Str) (hc : c ∈ CITY_PATTERNS) (x : Str) :
    matchCity (c ++ x) = (some c, x) := by
  have h3 : ∀ p ∈ CITY_PATTERNS, p.length = 3 := by decide
  have hnd : CITY_PATTERNS.Nodup := by decide
  unfold matchCity
  rw [find_first_pattern 3 x c CITY_PATTERNS h3 hnd hc]
  dsimp only
  rw [drop_append_self]

theorem districtMatch_concat (pre : Str) (h1 : 1 ≤ pre.length)
    (h4 : pre.length ≤ 4) (hpre : ∀ c ∈ pre, isDistrictSuffix c = false)
    (suf : Char) (hsuf : isDistrictSuffix suf = true) (r : Str) :
    districtMatch (pre ++ suf :: r) = some (pre ++ [suf]) := by
  have htw : (pre ++ suf :: r).takeWhile (fun c => !isDistrictSuffix c) = pre :=
    takeWhile_append_stop _ pre (fun c hcm => by rw [hpre c hcm]; rfl) suf
      (by rw [hsuf]; rfl) r
  unfold districtMatch
  simp only [htw]
  have hcond : 1 ≤ pre.length ∧ pre.length ≤ 4 ∧
      pre.length < (pre ++ suf :: r).length := by
    refine ⟨h1, h4, ?_⟩
    rw [List.length_append, List.length_cons]
    omega
  rw [if_pos hcond, take_append_cons]

theorem matchDistrict_concat (pre : Str) (h1 : 1 ≤ pre.length)
    (h4 : pre.length ≤ 4) (hpre : ∀ c ∈ pre, isDistrictSuffix c = false)
    (suf : Char) (hsuf : isDistrictSuffix suf = true) (r : Str) :
    matchDistrict (pre ++ suf :: r) = (some (pre ++ [suf]), r) := by
  unfold matchDistrict
  rw [districtMatch_concat pre h1 h4 hpre suf hsuf r]
  dsimp only
  rw [show (pre ++ [suf]).length = pre.length + 1 from by
    rw [List.length_append, List.length_singleton]]
  rw [drop_append_cons]

/-- Claim C2 (amended): for every known city, every district name made of
1-4 non-suffix characters followed by a suffix character (the only form
the district regex can strip in full), and arbitrary remainder text, the
parser returns exactly that city, exactly that district, and the trimmed
remainder. -/
theorem c2_parse_concat (city : Str) (hcity : city ∈ CITY_PATTERNS)
    (pre : Str) (suf : Char) (rest : Str)
    (h1 : 1 ≤ pre.length) (h4 : pre.length ≤ 4)
    (hpre : ∀ c ∈ pre, isDistrictSuffix c = false)
    (hsuf : suf ∈ DISTRICT_SUFFIXES) :
    parse_city_and_district (some (city ++ pre ++ suf :: rest)) none none =
      (some city, some (pre ++ [suf]), pyStrip rest) := by
  have hall : ∀ p ∈ CITY_PATTERNS, p ≠ [] ∧ pyIsSpace p.headI = false := by
    decide
  obtain ⟨hcne, hh⟩ := hall city hcity
  have hsufd : isDistrictSuffix suf = true := by
    fin_cases hsuf <;> decide
  have hsufs : pyIsSpace suf = false := by
    fin_cases hsuf <;> decide
  have hlstrip : lstrip (city ++ pre ++ suf :: rest) =
      city ++ pre ++ suf :: rest := by
    cases hcq : city with
    | nil => exact absurd hcq hcne
    | cons ch ct =>
      have hch : pyIsSpace ch = false := by
        rw [hcq] at hh
        simpa using hh
      rw [List.cons_append, List.cons_append]
      exact lstrip_cons_not ch hch _
  have hrstrip : rstrip (city ++ pre ++ suf :: rest) =
      city ++ pre ++ suf :: rstrip rest :=
    rstrip_append_cons (city ++ pre) suf hsufs rest
  have hstrip : pyStrip (city ++ pre ++ suf :: rest) =
      city ++ pre ++ suf :: rstrip rest := by
    unfold pyStrip
    rw [hlstrip, hrstrip]
  have hne : city ++ pre ++ suf :: rstrip rest ≠ [] := by
    cases hcq : city with
    | nil => exact absurd hcq hcne
    | cons ch ct => simp
  unfold parse_city_and_district
  dsimp only
  rw [hstrip, if_neg hne]
  rw [show city ++ pre ++ suf :: rstrip rest =
    city ++ (pre ++ suf :: rstrip rest) from List.append_assoc city pre _]
  rw [matchCity_concat city hcity (pre ++ suf :: rstrip rest)]
  dsimp only
  have htc : pyTruthy (some city) = true := by
    cases hcq : city with
    | nil => exact absurd hcq hcne
    | cons ch ct => simp [pyTruthy]
  have hcityif : (if !pyTruthy (some city) && pyTruthy (none : Option Str) then
      (none : Option Str) else some city) = some city := by
    simp [pyTruthy]
  rw [hcityif]
  have hdcond : (pyTruthy (some city) &&
      decide (0 < (pre ++ suf :: rstrip rest).length)) = true := by
    rw [htc]
    simp
  simp only [hdcond, if_true]
  rw [matchDistrict_concat pre h1 h4 hpre suf hsufd (rstrip rest)]
  dsimp only
  have hdistif : (if !pyTruthy (some (pre ++ [suf])) &&
      pyTruthy (none : Option Str) then (none : Option Str)
      else some (pre ++ [suf])) = some (pre ++ [suf]) := by
    simp [pyTruthy]
  rw [hdistif, pyStrip_rstrip]

/-- Modelled from the spec: the "known district set" that the claim
quantifies over — no district list exists in the code, and the spec
defines districts as "1-4 arbitrary characters immediately followed by
one of a fixed set of suffix characters". -/
def specKnownDistrict (d : Str) : Bool :=
  match d.getLast? with
  | some c => decide (2 ≤ d.length) && decide (d.length ≤ 5) && isDistrictSuffix c
  | none => false

/-- Claim C2 (counterexample): the real district 新市區 (Tainan) belongs
to the spec's district set (two arbitrary characters 新市 followed by the
suffix 區), yet parsing the known city 臺南市 ++ 新市區 ++ the remainder
中正路 returns the district 新市 — the regex stops at the first suffix
character 市 inside the name — and the mangled remainder 區中正路. -/
theorem c2_spec_district_cex :
    specKnownDistrict "新市區".toList = true ∧
    "臺南市".toList ∈ CITY_PATTERNS ∧
    parse_city_and_district (some "臺南市新市區中正路".toList) none none =
      (some "臺南市".toList, some "新市".toList, "區中正路".toList) ∧
    ("新市".toList : Str) ≠ "新市區".toList := by
  exact ⟨by decide, by decide, by decide, by decide⟩

/-- Claim C2 witness: the amended statement at the concrete address
臺北市 ++ 北投 ++ 區 ++ 榮華三路. -/
theorem c2_parse_concat_witness :
    parse_city_and_district
        (some ("臺北市".toList ++ "北投".toList ++ '區' :: "榮華三路".toList))
        none none =
      (some "臺北市".toList, some ("北投".toList ++ ['區']),
        pyStrip "榮華三路".toList) :=
  c2_parse_concat "臺北市".toList (by decide) "北投".toList '區' "榮華三路".toList
    (by decide) (by decide) (by decide) (by decide)

/- ---------------------------------------------------------------------
Claim C8: the coordinate transformer at the false-easting origin
--------------------------------------------------------------------- -/

/-- `twd97_to_wgs84` from parse_playgrounds.py (lines 55-120), the inverse
transverse-Mercator series over the GRS80 ellipsoid with scale factor
0.9999, false easting 250000 m and central meridian 121°, over the real
numbers (Python floats idealised as reals). -/
noncomputable def twd97_to_wgs84 (x y : ℝ) : ℝ × ℝ :=
  let a : ℝ := 6378137.0
  let b : ℝ := 6356752.314140
  let e : ℝ := Real.sqrt (1 - (b * b) / (a * a))
  let k0 : ℝ := 0.9999
  let dx : ℝ := 250000
  let dy : ℝ := 0
  let lon0 : ℝ := 121 * Real.pi / 180
  let x1 : ℝ := x - dx
  let y1 : ℝ := y - dy
  let M : ℝ := y1 / k0
  let mu : ℝ := M / (a * (1 - e ^ 2 / 4 - 3 * e ^ 4 / 64 - 5 * e ^ 6 / 256))
  let e1 : ℝ := (1 - Real.sqrt (1 - e * e)) / (1 + Real.sqrt (1 - e * e))
  let J1 : ℝ := 3 * e1 / 2 - 27 * e1 ^ 3 / 32
  let J2 : ℝ := 21 * e1 ^ 2 / 16 - 55 * e1 ^ 4 / 32
  let J3 : ℝ := 151 * e1 ^ 3 / 96
  let J4 : ℝ := 1097 * e1 ^ 4 / 512
  let fp : ℝ := mu + J1 * Real.sin (2 * mu) + J2 * Real.sin (4 * mu) +
    J3 * Real.sin (6 * mu) + J4 * Real.sin (8 * mu)
  let e2 : ℝ := e ^ 2 / (1 - e ^ 2)
  let N1 : ℝ := a / Real.sqrt (1 - e ^ 2 * Real.sin fp ^ 2)
  let T1 : ℝ := Real.tan fp ^ 2
  let C1 : ℝ := e2 * Real.cos fp ^ 2
  let R1 : ℝ := a * (1 - e ^ 2) / (1 - e ^ 2 * Real.sin fp ^ 2) ^ (1.5 : ℝ)
  let D : ℝ := x1 / (N1 * k0)
  let Q1 : ℝ := N1 * Real.tan fp / R1
  let Q2 : ℝ := D ^ 2 / 2
  let Q3 : ℝ := (5 + 3 * T1 + 10 * C1 - 4 * C1 ^ 2 - 9 * e2) * D ^ 4 / 24
  let Q4 : ℝ := (61 + 90 * T1 + 298 * C1 + 45 * T1 ^ 2 - 252 * e2 -
    3 * C1 ^ 2) * D ^ 6 / 720
  let lat : ℝ := fp - Q1 * (Q2 - Q3 + Q4)
  let Q5 : ℝ := D
  let Q6 : ℝ := (1 + 2 * T1 + C1) * D ^ 3 / 6
  let Q7 : ℝ := (5 - 2 * C1 + 28 * T1 - 3 * C1 ^ 2 + 8 * e2 +
    24 * T1 ^ 2) * D ^ 5 / 120
  let lng : ℝ := lon0 + (Q5 - Q6 + Q7) / Real.cos fp
  (lat * 180 / Real.pi, lng * 180 / Real.pi)

theorem twd97_origin_exact : twd97_to_wgs84 250000 0 = (0, 121) := by
  unfold twd97_to_wgs84
  simp only [sub_self, zero_div, zero_mul, mul_zero, Real.sin_zero, add_zero,
    zero_add, Real.tan_zero, Real.cos_zero, div_one, zero_pow, ne_eq,
    OfNat.ofNat_ne_zero, not_false_eq_true, zero_sub, neg_zero, sub_zero]
  rw [Prod.mk.injEq]
  refine ⟨rfl, ?_⟩
  have hpi := Real.pi_ne_zero
  field_simp

/-- Claim C8: the transformer applied to (false easting, 0) — x equal to
the 250000 m offset, northing 0 — returns latitude 0 and longitude 121
(the central meridian); the result is exact, hence within 1e-6 degrees. -/
theorem c8_origin_maps_to_central_meridian :
    |(twd97_to_wgs84 250000 0).1 - 0| ≤ 1 / 1000000 ∧
      |(twd97_to_wgs84 250000 0).2 - 121| ≤ 1 / 1000000 := by
  rw [twd97_origin_exact]
  norm_num
